import Mathlib

set_option maxRecDepth 100000

/-!
Verification of the route-construction state machine of the tourle daily
puzzle game, shallowly embedded from the JavaScript source.

Embedded functions and their sources:
* `findNodeAt`, `isSameNode` — src utils/canvasUtils (hit-testing and node
  identity).  JavaScript compares `sqrt(dx^2 + dy^2) < clickRadius`; since
  both sides are nonnegative for the radii the program uses (30 and 50),
  this is embedded as the equivalent decidable comparison
  `dx^2 + dy^2 < clickRadius^2` over exact rationals.
* `handleNodeClick`, `undoLastMove`, `resetRoute`, `checkWinCondition`,
  `toggleSolution` — the useGameState hook.  React state-setter calls are
  embedded as sequential record updates on a single `GameState`; within one
  handler every read is from the pre-handler snapshot, matching the hook's
  use of the captured state values.
* `saveScore`, `getBestScore`, `getPuzzleScores` — utils/scoreStorage, with
  the localStorage JSON object embedded as an association list from the
  string key `date ++ "_" ++ difficulty` to the stored score list.

JavaScript numbers (IEEE-754 doubles) are idealized as exact arithmetic:
node coordinates as integers (the puzzle generator lays nodes on the integer
canvas grid, and no claim depends on fractional coordinates), distances and
efficiency values as exact rationals `ℚ`.  `calculateDistance` sums
Euclidean edge lengths, whose square roots are irrational; the win/score
evaluator therefore takes the distance function as an explicit parameter
`dist : List Node → ℚ`, and every theorem about it holds for all such
functions, which subsumes the actual metric.  No control flow of the state
machine itself depends on `calculateDistance`.
-/

namespace Tourle

/-- A 2-D point with integer coordinates (model of a JS `{x, y}` object). -/
structure Point where
  x : ℤ
  y : ℤ
deriving DecidableEq, Repr

/-- A puzzle destination, from the puzzle JSON: `{id, x, y}`. -/
structure House where
  id : Nat
  x : ℤ
  y : ℤ
deriving DecidableEq, Repr

/-- Puzzle data as loaded by the puzzle provider:
`{date, north_pole, houses, optimal_distance}`. -/
structure Puzzle where
  date : String
  north_pole : Point
  houses : List House
  optimal_distance : ℚ
deriving DecidableEq, Repr

/-- A route node: the JS duck-typed `{type: 'north_pole', x, y}` or
`{type: 'house', id, x, y}` objects, as a tagged union. -/
inductive Node where
  | north_pole (x y : ℤ)
  | house (id : Nat) (x y : ℤ)
deriving DecidableEq, Repr

/-- Whether a node is the depot (`node.type === 'north_pole'`). -/
def Node.isNP : Node → Bool
  | .north_pole _ _ => true
  | .house _ _ _ => false

/-- The depot node built from the puzzle data, as constructed at
`{ type: 'north_pole', x: np.x, y: np.y }` in the hook. -/
def npNode (p : Puzzle) : Node :=
  Node.north_pole p.north_pole.x p.north_pole.y

/-- Squared Euclidean distance, the decidable stand-in for the JS
`Math.sqrt((x1-x2)**2 + (y1-y2)**2)` compared against a radius. -/
def distSq (x y a b : ℤ) : ℤ :=
  (x - a) * (x - a) + (y - b) * (y - b)

/-- canvasUtils.isSameNode: different types are never equal, depots compare
by coordinates, houses compare by id. -/
def isSameNode : Node → Node → Bool
  | .north_pole x1 y1, .north_pole x2 y2 => x1 = x2 && y1 = y2
  | .house i _ _, .house j _ _ => i = j
  | _, _ => false

/-- canvasUtils.findNodeAt: hit-test the depot first, then the houses in
list order, each within `clickRadius` of the click point.  The comparison
`sqrt(d) < clickRadius` is embedded as `d < clickRadius^2` (equivalent for
the nonnegative radii the program uses). -/
def findNodeAt (p : Puzzle) (clickRadius x y : ℤ) : Option Node :=
  if distSq x y p.north_pole.x p.north_pole.y < clickRadius * clickRadius then
    some (npNode p)
  else
    (p.houses.find? fun h => distSq x y h.x h.y < clickRadius * clickRadius).map
      fun h => Node.house h.id h.x h.y

/-- The full mutable state owned by the useGameState hook (the fields the
route state machine and win evaluator read or write; render-only animation
progress and the timer handles are not part of the logical state). -/
structure GameState where
  puzzle : Puzzle
  route : List Node
  visitedHouses : Finset Nat
  gameComplete : Bool
  showingSolution : Bool
  solutionRoute : Option (List Node)
  solutionAnimationIndex : Nat
  showReminder : Bool
  attempts : Nat
  currentAttemptStarted : Bool
deriving DecidableEq

/-- The state right after a successful puzzle load (the reset block of the
`loadForDate` effect). -/
def initState (p : Puzzle) : GameState where
  puzzle := p
  route := []
  visitedHouses := ∅
  gameComplete := false
  showingSolution := false
  solutionRoute := none
  solutionAnimationIndex := 0
  showReminder := false
  attempts := 0
  currentAttemptStarted := false

/-- The Destination ids occurring in a route, in order (the
`route.filter(node => node.type === 'house').map(node => node.id)`
computation of the win evaluator). -/
def routeHouseIds (l : List Node) : List Nat :=
  l.filterMap fun n =>
    match n with
    | .house id _ _ => some id
    | .north_pole _ _ => none

/-- The retreat pop shared by the two tap-to-undo branches of
handleNodeClick: pop the last route node, drop its id from the visited set
when it is a house, clear the game-complete and reminder flags. -/
def retreatPop (s : GameState) : GameState :=
  { s with
    route := s.route.dropLast
    visitedHouses :=
      match s.route.getLast? with
      | some (.house id _ _) => s.visitedHouses.erase id
      | _ => s.visitedHouses
    gameComplete := false
    showReminder := false }

/-- Whether the last route element is the depot
(`route[route.length - 1].type !== 'north_pole'` is the negation). -/
def lastIsNP (l : List Node) : Bool :=
  (l.getLast?.map Node.isNP).getD false

/-- Whether the first route element is the depot. -/
def headIsNP (l : List Node) : Bool :=
  (l.head?.map Node.isNP).getD false

/-- The common tail of handleNodeClick (source lines 247-291): act on the
resolved target node.  A depot target closes the tour when all houses are
visited; a house target appends (opening the route with the depot first when
the route is empty) and marks the attempt started. -/
def applyTarget (t : Node) (s : GameState) : GameState :=
  match t with
  | .north_pole tx ty =>
    if s.route.length = 0 then s
    else if s.route.length > 1 ∧ s.visitedHouses.card = s.puzzle.houses.length then
      { s with route := s.route ++ [Node.north_pole tx ty], showReminder := false }
    else if ¬ lastIsNP s.route then
      if s.visitedHouses.card = s.puzzle.houses.length then
        { s with route := s.route ++ [Node.north_pole tx ty], showReminder := false }
      else s
    else s
  | .house id hx hy =>
    if id ∈ s.visitedHouses then s
    else if s.route.length = 0 then
      { s with
        route := [npNode s.puzzle, Node.house id hx hy]
        visitedHouses := insert id s.visitedHouses
        currentAttemptStarted := true }
    else
      { s with
        route := s.route ++ [Node.house id hx hy]
        visitedHouses := insert id s.visitedHouses
        currentAttemptStarted := true }

/-- The stale-drag guard of handleNodeClick (source lines 192-194): the
supplied `fromNode` hint mismatches the actual last route node. -/
def fromMismatch : Node → Node → Bool
  | .house i _ _, .house j _ _ => i ≠ j
  | .north_pole x1 y1, .north_pole x2 y2 => x1 ≠ x2 || y1 ≠ y2
  | _, _ => true

/-- Target resolution inside the `fromNode` branch of handleNodeClick, which
inlines the hit test with the fixed desktop radius 30 (depot first, then the
houses in order). -/
def targetFrom (p : Puzzle) (x y : ℤ) : Option Node :=
  if distSq x y p.north_pole.x p.north_pole.y < 900 then
    some (npNode p)
  else
    (p.houses.find? fun h => distSq x y h.x h.y < 900).map
      fun h => Node.house h.id h.x h.y

/-- useGameState.handleNodeClick.  `clickRadius` is the ambient default
radius that `findNodeAt` uses on the tap path (30 on desktop, 50 on touch
devices); the drag path hard-codes 30 as in the source.  With no `fromNode`
hint, a tap on the last or second-to-last route node is decoded as a retreat
pop; otherwise the resolved target is applied as a visit. -/
def handleNodeClick (clickRadius x y : ℤ) (fromNode : Option Node)
    (s : GameState) : GameState :=
  match fromNode with
  | some f =>
    match targetFrom s.puzzle x y with
    | none => s
    | some t =>
      match s.route.getLast? with
      | some lastN => if fromMismatch f lastN then s else applyTarget t s
      | none => applyTarget t s
  | none =>
    match findNodeAt s.puzzle clickRadius x y with
    | none => s
    | some t =>
      if (match t with
          | .house id _ _ => decide (id ∈ s.visitedHouses)
          | _ => false) then s
      else
        match s.route.getLast? with
        | none => applyTarget t s
        | some lastN =>
          if isSameNode t lastN then retreatPop s
          else
            match s.route.dropLast.getLast? with
            | some secondLastN =>
              if isSameNode t secondLastN then retreatPop s
              else applyTarget t s
            | none => applyTarget t s

/-- useGameState.undoLastMove: pop the trailing node whatever it is, with
the same visited bookkeeping; collapsing to length ≤ 1 clears the
attempt-started flag, and undoing out of a completed game restores it
exactly when the remaining length exceeds 1. -/
def undoLastMove (s : GameState) : GameState :=
  match s.route.getLast? with
  | none => s
  | some lastN =>
    let newRoute := s.route.dropLast
    let visited :=
      match lastN with
      | .house id _ _ => s.visitedHouses.erase id
      | _ => s.visitedHouses
    let started1 := if newRoute.length ≤ 1 then false else s.currentAttemptStarted
    let started2 := if s.gameComplete then decide (newRoute.length > 1) else started1
    { s with
      route := newRoute
      visitedHouses := visited
      currentAttemptStarted := started2
      gameComplete := false
      showReminder := false }

/-- useGameState.resetRoute: clear the route, visited set and all flags,
leaving the attempt counter and puzzle untouched. -/
def resetRoute (s : GameState) : GameState :=
  { s with
    route := []
    visitedHouses := ∅
    gameComplete := false
    showReminder := false
    showingSolution := false
    solutionRoute := none
    solutionAnimationIndex := 0
    currentAttemptStarted := false }

/-- Left-pad a sub-hundred remainder to two digits. -/
def pad2 (n : Nat) : String :=
  if n < 10 then "0" ++ toString n else toString n

/-- JavaScript `toFixed(2)` on an (idealized, exact) number: round to the
nearest hundredth, ties toward the larger value, then print with exactly two
decimals. -/
def toFixed2 (q : ℚ) : String :=
  let n : ℤ := ⌊q * 100 + 1 / 2⌋
  if n < 0 then
    "-" ++ toString ((-n).toNat / 100) ++ "." ++ pad2 ((-n).toNat % 100)
  else
    toString (n.toNat / 100) ++ "." ++ pad2 (n.toNat % 100)

/-- The score record emitted to the score store on completion:
`{distance, optimalDistance, efficiency, attempts, timestamp}`. -/
structure ScoreRecord where
  distance : ℚ
  optimalDistance : ℚ
  efficiency : String
  attempts : Nat
  timestamp : Nat
deriving DecidableEq, Repr

/-- The record built inside checkWinCondition (source lines 86-123): when
the player's distance beats the stored optimum, efficiency is the literal
`100.00%` and the record's optimalDistance is overwritten with the player's
distance; otherwise efficiency is `min(optimal/current * 100, 100)` to two
decimals.  `dist` models calculateDistance and `now` models Date.now(). -/
def emitRecord (dist : List Node → ℚ) (now : Nat) (s : GameState) : ScoreRecord :=
  let currentDist := dist s.route
  let finalAttempts := s.attempts + (if s.currentAttemptStarted then 1 else 0)
  let att := if finalAttempts > 0 then finalAttempts else 1
  if currentDist < s.puzzle.optimal_distance then
    { distance := currentDist
      optimalDistance := currentDist
      efficiency := "100.00%"
      attempts := att
      timestamp := now }
  else
    { distance := currentDist
      optimalDistance := s.puzzle.optimal_distance
      efficiency := toFixed2 (min (s.puzzle.optimal_distance / currentDist * 100) 100) ++ "%"
      attempts := att
      timestamp := now }

/-- useGameState.checkWinCondition: the win/score evaluator run after every
mutation.  Returns the updated state together with the score record passed
to saveScore, if any.  The route qualifies when it has length ≥ 2, starts
and ends at the depot and the visited set is full; a defensive re-validation
then recounts the house ids in the route and aborts (warning only, no state
change) unless they occur exactly once each; the attempt counter is consumed
and a record emitted only when the game was not already complete. -/
def checkWinCondition (dist : List Node → ℚ) (now : Nat) (s : GameState) :
    GameState × Option ScoreRecord :=
  if s.route.length < 2 then (s, none)
  else if headIsNP s.route && lastIsNP s.route then
    if s.visitedHouses.card = s.puzzle.houses.length then
      let houseIdsInRoute := routeHouseIds s.route
      if houseIdsInRoute.toFinset.card ≠ s.puzzle.houses.length ∨
          houseIdsInRoute.length ≠ s.puzzle.houses.length then
        (s, none)
      else
        let doCount := !s.gameComplete && s.currentAttemptStarted
        let saved := if s.gameComplete then none else some (emitRecord dist now s)
        ({ s with
            attempts := if doCount then s.attempts + 1 else s.attempts
            currentAttemptStarted := if doCount then false else s.currentAttemptStarted
            gameComplete := true },
          saved)
    else (s, none)
  else (s, none)

/-- The state part of the evaluator, for composing mutation sequences. -/
def afterCheck (dist : List Node → ℚ) (now : Nat) (s : GameState) : GameState :=
  (checkWinCondition dist now s).1

/-- useGameState.toggleSolution.  `loadResult` stands for the awaited
`loadSolution` outcome (`none` = rejected promise); the returned Bool
records whether `loadSolution` was invoked at all.  Hard puzzles are
rejected up front (alert only, nothing fetched, nothing changed). -/
def toggleSolution (difficulty : String) (loadResult : Option (List Node))
    (s : GameState) : GameState × Bool :=
  if difficulty = "hard" then (s, false)
  else if s.showingSolution then
    ({ s with
        showingSolution := false
        solutionRoute := none
        solutionAnimationIndex := 0 }, false)
  else
    match loadResult with
    | some r =>
      ({ s with
          solutionRoute := some r
          showingSolution := true
          solutionAnimationIndex := 0 }, true)
    | none => (s, true)

/-! ### Score storage (utils/scoreStorage) -/

/-- A score as stored in localStorage: the saved record plus the
`timestamp`/`date`/`difficulty` fields saveScore stamps onto it. -/
structure StoredScore where
  distance : ℚ
  optimalDistance : ℚ
  efficiency : String
  attempts : Nat
  timestamp : Nat
  date : String
  difficulty : String
deriving DecidableEq, Repr

/-- The parsed `tsp-scores` localStorage object: an association list from
the key `date ++ "_" ++ difficulty` to that puzzle's score list. -/
abbrev ScoresMap := List (String × List StoredScore)

/-- The storage key `date_difficulty`. -/
def storeKey (date difficulty : String) : String :=
  date ++ "_" ++ difficulty

/-- `allScores[key] || []`. -/
def lookupScores (m : ScoresMap) (k : String) : List StoredScore :=
  ((m.find? fun e => e.1 = k).map Prod.snd).getD []

/-- Write one key of the scores object, keeping the others. -/
def setKey (m : ScoresMap) (k : String) (v : List StoredScore) : ScoresMap :=
  match m with
  | [] => [(k, v)]
  | e :: rest => if e.1 = k then (k, v) :: rest else e :: setKey rest k v

/-- scoreStorage.getPuzzleScores. -/
def getPuzzleScores (m : ScoresMap) (date difficulty : String) : List StoredScore :=
  lookupScores m (storeKey date difficulty)

/-- The stored form of a record: `{...scoreData, timestamp: scoreData.timestamp
|| Date.now(), date, difficulty}` (a zero timestamp is falsy in JS and is
replaced by the current time). -/
def storedOf (date difficulty : String) (r : ScoreRecord) (now : Nat) : StoredScore :=
  { distance := r.distance
    optimalDistance := r.optimalDistance
    efficiency := r.efficiency
    attempts := r.attempts
    timestamp := if r.timestamp = 0 then now else r.timestamp
    date := date
    difficulty := difficulty }

/-- scoreStorage.saveScore: append the stamped record under its key, then
keep only the last 50 records per puzzle (`slice(-50)`). -/
def saveScore (m : ScoresMap) (date difficulty : String) (r : ScoreRecord)
    (now : Nat) : ScoresMap :=
  let k := storeKey date difficulty
  let l := lookupScores m k ++ [storedOf date difficulty r now]
  let l2 := if l.length > 50 then l.drop (l.length - 50) else l
  setKey m k l2

/-- Digits consumed from the front of a character list, as values. -/
def takeDigits : List Char → List Nat × List Char
  | [] => ([], [])
  | c :: cs =>
    if c.isDigit then
      let (ds, r) := takeDigits cs
      ((c.toNat - 48) :: ds, r)
    else ([], c :: cs)

/-- Decimal digit list to a natural number. -/
def digitsToNat (ds : List Nat) : Nat :=
  ds.foldl (fun a d => a * 10 + d) 0

/-- Powers of ten as rationals. -/
def tenPow : Nat → ℚ
  | 0 => 1
  | n + 1 => 10 * tenPow n

/-- JavaScript parseFloat on the strings this program produces (an optional
sign, an integer part, an optional fractional part; trailing garbage such as
the stripped-percent remainder is ignored).  `none` models NaN. -/
def jsParseFloat (s : String) : Option ℚ :=
  let cs := s.data
  let (neg, cs1) :=
    match cs with
    | Char.ofNat 45 :: r => (true, r)
    | Char.ofNat 43 :: r => (false, r)
    | _ => (false, cs)
  let (ip, cs2) := takeDigits cs1
  let (fp, sawDot) :=
    match cs2 with
    | Char.ofNat 46 :: r => ((takeDigits r).1, true)
    | _ => ([], false)
  if ip.isEmpty ∧ (fp.isEmpty ∨ ¬ sawDot) then none
  else
    let mag : ℚ := digitsToNat ip + (digitsToNat fp : ℚ) / tenPow fp.length
    some (if neg then -mag else mag)

/-- Drop the first percent sign, as `efficiency.replace(CHR37, EMPTY)` does
(JS String.replace with a string pattern replaces the first occurrence). -/
def dropFirstPct : List Char → List Char
  | [] => []
  | c :: cs => if c = Char.ofNat 37 then cs else c :: dropFirstPct cs

/-- `parseFloat(efficiency.replace(...percent...))`. -/
def parseEff (s : String) : Option ℚ :=
  jsParseFloat (String.mk (dropFirstPct s.data))

/-- The strict comparison `currentEfficiency > bestEfficiency` used by the
getBestScore reducer; any NaN makes it false, as in JS. -/
def effGT (a b : String) : Bool :=
  match parseEff a, parseEff b with
  | some x, some y => decide (x > y)
  | _, _ => false

/-- One step of the getBestScore reducer. -/
def bestStep (best current : StoredScore) : StoredScore :=
  if effGT current.efficiency best.efficiency then current else best

/-- scoreStorage.getBestScore: null on an empty list, else the reduce that
keeps the record with the strictly highest parsed efficiency (ties keep the
earlier record). -/
def getBestScore (m : ScoresMap) (date difficulty : String) : Option StoredScore :=
  match getPuzzleScores m date difficulty with
  | [] => none
  | h :: t => some (t.foldl bestStep h)

/-! ### Basic route lemmas -/

theorem routeHouseIds_append (l1 l2 : List Node) :
    routeHouseIds (l1 ++ l2) = routeHouseIds l1 ++ routeHouseIds l2 :=
  List.filterMap_append l1 l2 _

theorem routeHouseIds_np (x y : ℤ) : routeHouseIds [Node.north_pole x y] = [] := rfl

theorem routeHouseIds_house (id : Nat) (x y : ℤ) :
    routeHouseIds [Node.house id x y] = [id] := rfl

theorem dropLast_concat_getLast (l : List Node) (n : Node) (h : l.getLast? = some n) :
    l.dropLast ++ [n] = l :=
  List.dropLast_append_getLast? n h

theorem routeHouseIds_dropLast (l : List Node) (n : Node) (h : l.getLast? = some n) :
    routeHouseIds l = routeHouseIds l.dropLast ++ routeHouseIds [n] := by
  conv_lhs => rw [← dropLast_concat_getLast l n h]
  exact routeHouseIds_append _ _

theorem nodup_of_toFinset_card (l : List Nat) (h : l.toFinset.card = l.length) :
    l.Nodup := by
  rw [List.card_toFinset] at h
  have hs : l.dedup.Sublist l := List.dedup_sublist l
  have he : l.dedup = l := hs.eq_of_length h
  rw [← he]
  exact l.nodup_dedup

theorem toFinset_card_of_nodup (l : List Nat) (h : l.Nodup) :
    l.toFinset.card = l.length := by
  rw [List.card_toFinset, h.dedup]

/-! ### The route/visited-set invariant -/

/-- The structural invariant of the route state machine: the puzzle is the
loaded one, no house id occurs twice in the route, the visited set is
exactly the set of house ids in the route, and a non-empty route starts at
the depot node of the puzzle. -/
def RouteInv (p : Puzzle) (s : GameState) : Prop :=
  s.puzzle = p ∧
  (routeHouseIds s.route).Nodup ∧
  s.visitedHouses = (routeHouseIds s.route).toFinset ∧
  ∀ n, s.route.head? = some n → n = npNode p

theorem routeInv_initState (p : Puzzle) : RouteInv p (initState p) := by
  refine ⟨rfl, List.nodup_nil, rfl, ?_⟩
  intro n h
  exact Option.noConfusion h

theorem head?_append_singleton (l : List Node) (x : Node) (h : l ≠ []) :
    (l ++ [x]).head? = l.head? :=
  List.head?_append_of_ne_nil l h

/-- Appending a depot node never changes the house ids of a route. -/
theorem routeHouseIds_append_np (l : List Node) (x y : ℤ) :
    routeHouseIds (l ++ [Node.north_pole x y]) = routeHouseIds l := by
  rw [routeHouseIds_append, routeHouseIds_np, List.append_nil]

/-- Case analysis of applyTarget: it rejects (state unchanged), closes the
tour with a depot append, opens a fresh route, or appends a new house. -/
theorem applyTarget_cases (t : Node) (s : GameState) :
    applyTarget t s = s ∨
    (∃ tx ty, t = Node.north_pole tx ty ∧ s.route ≠ [] ∧
      applyTarget t s =
        { s with route := s.route ++ [Node.north_pole tx ty], showReminder := false }) ∨
    (∃ id hx hy, t = Node.house id hx hy ∧ id ∉ s.visitedHouses ∧ s.route = [] ∧
      applyTarget t s =
        { s with route := [npNode s.puzzle, Node.house id hx hy],
                 visitedHouses := insert id s.visitedHouses,
                 currentAttemptStarted := true }) ∨
    (∃ id hx hy, t = Node.house id hx hy ∧ id ∉ s.visitedHouses ∧ s.route ≠ [] ∧
      applyTarget t s =
        { s with route := s.route ++ [Node.house id hx hy],
                 visitedHouses := insert id s.visitedHouses,
                 currentAttemptStarted := true }) := by
  cases t with
  | north_pole tx ty =>
    by_cases h0 : s.route.length = 0
    · left
      simp [applyTarget, h0]
    · by_cases h1 : s.route.length > 1 ∧ s.visitedHouses.card = s.puzzle.houses.length
      · right; left
        refine ⟨tx, ty, rfl, ?_, ?_⟩
        · intro he; simp [he] at h0
        · simp [applyTarget, h0, h1]
      · by_cases h2 : ¬ lastIsNP s.route
        · by_cases h3 : s.visitedHouses.card = s.puzzle.houses.length
          · right; left
            refine ⟨tx, ty, rfl, ?_, ?_⟩
            · intro he; simp [he] at h0
            · simp [applyTarget, h0, h1, h2, h3]
          · left
            simp [applyTarget, h0, h1, h2, h3]
        · left
          simp only [not_not] at h2
          simp [applyTarget, h0, h1, h2]
  | house id hx hy =>
    by_cases hm : id ∈ s.visitedHouses
    · left
      simp [applyTarget, hm]
    · by_cases h0 : s.route.length = 0
      · right; right; left
        exact ⟨id, hx, hy, rfl, hm, List.length_eq_zero.mp h0, by simp [applyTarget, hm, h0]⟩
      · right; right; right
        refine ⟨id, hx, hy, rfl, hm, ?_, by simp [applyTarget, hm, h0]⟩
        intro he; simp [he] at h0

/-- Case analysis of handleNodeClick: every call either leaves the state
unchanged, performs a retreat pop, or applies some resolved target. -/
theorem handleNodeClick_cases (r x y : ℤ) (fr : Option Node) (s : GameState) :
    handleNodeClick r x y fr s = s ∨
    handleNodeClick r x y fr s = retreatPop s ∨
    ∃ t, handleNodeClick r x y fr s = applyTarget t s := by
  unfold handleNodeClick
  cases fr with
  | some f =>
    cases targetFrom s.puzzle x y with
    | none => left; rfl
    | some t =>
      cases s.route.getLast? with
      | none => right; right; exact ⟨t, rfl⟩
      | some lastN =>
        by_cases hm : fromMismatch f lastN
        · left; simp [hm]
        · right; right
          exact ⟨t, by simp [hm]⟩
  | none =>
    cases findNodeAt s.puzzle r x y with
    | none => left; rfl
    | some t =>
      by_cases hv : (match t with
          | .house id _ _ => decide (id ∈ s.visitedHouses)
          | _ => false) = true
      · left; simp [hv]
      · simp only [hv]
        cases s.route.getLast? with
        | none => right; right; exact ⟨t, by simp [hv]⟩
        | some lastN =>
          by_cases h1 : isSameNode t lastN
          · right; left; simp [hv, h1]
          · cases s.route.dropLast.getLast? with
            | none => right; right; exact ⟨t, by simp [hv, h1]⟩
            | some secondLastN =>
              by_cases h2 : isSameNode t secondLastN
              · right; left; simp [hv, h1, h2]
              · right; right; exact ⟨t, by simp [hv, h1, h2]⟩

theorem routeInv_applyTarget (p : Puzzle) (t : Node) (s : GameState)
    (h : RouteInv p s) : RouteInv p (applyTarget t s) := by
  obtain ⟨hp, hnd, hv, hh⟩ := h
  rcases applyTarget_cases t s with he | ⟨tx, ty, ht, hne, he⟩ |
      ⟨id, hx, hy, ht, hm, hr, he⟩ | ⟨id, hx, hy, ht, hm, hne, he⟩
  · rw [he]; exact ⟨hp, hnd, hv, hh⟩
  · rw [he]
    refine ⟨hp, ?_, ?_, ?_⟩
    · simpa [routeHouseIds_append_np] using hnd
    · simpa [routeHouseIds_append_np] using hv
    · intro n hn
      apply hh
      rwa [head?_append_singleton _ _ hne] at hn
  · rw [he]
    refine ⟨hp, ?_, ?_, ?_⟩
    · simp [routeHouseIds, npNode]
    · simp [routeHouseIds, npNode, hr, hv]
    · intro n hn
      simp [npNode, hp] at hn ⊢
      simp [hn]
  · rw [he]
    refine ⟨hp, ?_, ?_, ?_⟩
    · rw [routeHouseIds_append, routeHouseIds_house, List.nodup_append]
      refine ⟨hnd, List.nodup_singleton id, ?_⟩
      intro a ha hb
      simp at hb
      subst hb
      apply hm
      rw [hv]
      exact List.mem_toFinset.mpr ha
    · rw [routeHouseIds_append, routeHouseIds_house, List.toFinset_append, hv]
      simp [Finset.union_comm, Finset.insert_eq]
    · intro n hn
      apply hh
      rwa [head?_append_singleton _ _ hne] at hn

theorem head?_of_dropLast_head? (l : List Node) (m : Node)
    (hm : l.dropLast.head? = some m) : l.head? = some m := by
  cases l with
  | nil => simp at hm
  | cons a t =>
    cases t with
    | nil => simp [List.dropLast] at hm
    | cons b t2 =>
      simp [List.dropLast] at hm
      simp [hm]

theorem routeInv_retreatPop (p : Puzzle) (s : GameState)
    (h : RouteInv p s) : RouteInv p (retreatPop s) := by
  obtain ⟨hp, hnd, hv, hh⟩ := h
  rcases hg : s.route.getLast? with _ | n
  · have hroute : s.route = [] := by
      cases hr : s.route with
      | nil => rfl
      | cons a l => rw [hr, List.getLast?_eq_getLast _ (by simp)] at hg; simp at hg
    refine ⟨hp, ?_, ?_, ?_⟩
    · simpa [retreatPop, hroute] using hnd
    · simp [retreatPop, hroute, hg] at hv ⊢
      simpa [hroute] using hv
    · intro n hn
      simp [retreatPop, hroute] at hn
  · have hids := routeHouseIds_dropLast s.route n hg
    cases n with
    | north_pole nx ny =>
      rw [routeHouseIds_np, List.append_nil] at hids
      refine ⟨hp, ?_, ?_, ?_⟩
      · simpa [retreatPop, ← hids] using hnd
      · simp [retreatPop, hg, ← hids]
        exact hv
      · intro m hm
        simp [retreatPop] at hm
        exact hh m (head?_of_dropLast_head? _ _ hm)
    | house nid nx ny =>
      rw [routeHouseIds_house] at hids
      have hnd2 : (routeHouseIds s.route.dropLast ++ [nid]).Nodup := hids ▸ hnd
      rw [List.nodup_append] at hnd2
      obtain ⟨hnd3, _, hdisj⟩ := hnd2
      have hnotmem : nid ∉ (routeHouseIds s.route.dropLast).toFinset := by
        rw [List.mem_toFinset]
        intro hmem
        exact hdisj hmem (by simp)
      refine ⟨hp, hnd3, ?_, ?_⟩
      · simp only [retreatPop, hg]
        rw [hv, hids, List.toFinset_append]
        have h1 : ([nid] : List Nat).toFinset = {nid} := by simp
        rw [h1, Finset.union_comm, ← Finset.insert_eq, Finset.erase_insert hnotmem]
      · intro m hm
        simp [retreatPop] at hm
        exact hh m (head?_of_dropLast_head? _ _ hm)

/-- The route invariant only reads the puzzle, route and visited set. -/
theorem routeInv_congr (p : Puzzle) {s1 s2 : GameState}
    (hpz : s1.puzzle = s2.puzzle) (hr : s1.route = s2.route)
    (hv : s1.visitedHouses = s2.visitedHouses) (h : RouteInv p s2) :
    RouteInv p s1 := by
  obtain ⟨h1, h2, h3, h4⟩ := h
  refine ⟨hpz.trans h1, ?_, ?_, ?_⟩
  · rwa [hr]
  · rw [hv, hr]; exact h3
  · intro n hn
    rw [hr] at hn
    exact h4 n hn

theorem undoLastMove_route (s : GameState) :
    (undoLastMove s).route = (retreatPop s).route := by
  unfold undoLastMove retreatPop
  cases hg : s.route.getLast? with
  | none => simp [List.getLast?_eq_none_iff.mp hg]
  | some n => rfl

theorem undoLastMove_visited (s : GameState) :
    (undoLastMove s).visitedHouses = (retreatPop s).visitedHouses := by
  unfold undoLastMove retreatPop
  cases hg : s.route.getLast? with
  | none => rfl
  | some n => cases n <;> rfl

theorem undoLastMove_puzzle (s : GameState) : (undoLastMove s).puzzle = s.puzzle := by
  unfold undoLastMove
  cases s.route.getLast? with
  | none => rfl
  | some n => rfl

theorem retreatPop_puzzle (s : GameState) : (retreatPop s).puzzle = s.puzzle := rfl

theorem applyTarget_puzzle (t : Node) (s : GameState) :
    (applyTarget t s).puzzle = s.puzzle := by
  rcases applyTarget_cases t s with he | ⟨_, _, _, _, he⟩ | ⟨_, _, _, _, _, _, he⟩ |
      ⟨_, _, _, _, _, _, he⟩ <;> rw [he]

theorem routeInv_handleNodeClick (p : Puzzle) (r x y : ℤ) (fr : Option Node)
    (s : GameState) (h : RouteInv p s) : RouteInv p (handleNodeClick r x y fr s) := by
  rcases handleNodeClick_cases r x y fr s with he | he | ⟨t, he⟩
  · rwa [he]
  · rw [he]; exact routeInv_retreatPop p s h
  · rw [he]; exact routeInv_applyTarget p t s h

theorem routeInv_undoLastMove (p : Puzzle) (s : GameState)
    (h : RouteInv p s) : RouteInv p (undoLastMove s) := by
  refine routeInv_congr p (undoLastMove_puzzle s ▸ (retreatPop_puzzle s).symm)
    (undoLastMove_route s) (undoLastMove_visited s) (routeInv_retreatPop p s h)

theorem routeInv_resetRoute (p : Puzzle) (s : GameState)
    (h : RouteInv p s) : RouteInv p (resetRoute s) := by
  obtain ⟨hp, _, _, _⟩ := h
  refine ⟨hp, List.nodup_nil, rfl, ?_⟩
  intro n hn
  exact Option.noConfusion hn

theorem afterCheck_route (dist : List Node → ℚ) (now : Nat) (s : GameState) :
    (afterCheck dist now s).route = s.route := by
  unfold afterCheck checkWinCondition
  dsimp only
  repeat (first | rfl | split)

theorem afterCheck_visited (dist : List Node → ℚ) (now : Nat) (s : GameState) :
    (afterCheck dist now s).visitedHouses = s.visitedHouses := by
  unfold afterCheck checkWinCondition
  dsimp only
  repeat (first | rfl | split)

theorem afterCheck_puzzle (dist : List Node → ℚ) (now : Nat) (s : GameState) :
    (afterCheck dist now s).puzzle = s.puzzle := by
  unfold afterCheck checkWinCondition
  dsimp only
  repeat (first | rfl | split)

/-- States reachable from the post-load empty state by sequences of
handleNodeClick, undoLastMove and resetRoute operations. -/
inductive Reachable (p : Puzzle) : GameState → Prop where
  | init : Reachable p (initState p)
  | click (r x y : ℤ) (fr : Option Node) {s : GameState} :
      Reachable p s → Reachable p (handleNodeClick r x y fr s)
  | undo {s : GameState} : Reachable p s → Reachable p (undoLastMove s)
  | reset {s : GameState} : Reachable p s → Reachable p (resetRoute s)

theorem routeInv_of_reachable (p : Puzzle) (s : GameState)
    (h : Reachable p s) : RouteInv p s := by
  induction h with
  | init => exact routeInv_initState p
  | click r x y fr hr ih => exact routeInv_handleNodeClick p r x y fr _ ih
  | undo hr ih => exact routeInv_undoLastMove p _ ih
  | reset hr ih => exact routeInv_resetRoute p _ ih

/-! ### Sequences of intents -/

/-- One decoded pointer intent: a click/drag event at canvas coordinates,
optionally carrying the drag `fromNode` hint. -/
structure ClickIntent where
  x : ℤ
  y : ℤ
  fromNode : Option Node
deriving DecidableEq, Repr

/-- Apply a list of pointer intents through handleNodeClick. -/
def applyClicks (r : ℤ) (s : GameState) (l : List ClickIntent) : GameState :=
  l.foldl (fun s c => handleNodeClick r c.x c.y c.fromNode s) s

/-- A sequence of intents is a sequence of legal VisitNode intents when each
one is accepted as a visit: the route grows by two nodes from the empty
route (the opening depot plus the first house) and by one node otherwise. -/
def visitStepsOk (r : ℤ) : GameState → List ClickIntent → Bool
  | _, [] => true
  | s, c :: rest =>
    let s2 := handleNodeClick r c.x c.y c.fromNode s
    (s2.route.length == s.route.length + (if s.route.length == 0 then 2 else 1)) &&
      visitStepsOk r s2 rest

/-- Iterated undoLastMove. -/
def undoN (n : Nat) (s : GameState) : GameState :=
  undoLastMove^[n] s

theorem undoLastMove_route_dropLast (s : GameState) :
    (undoLastMove s).route = s.route.dropLast :=
  undoLastMove_route s

theorem reachable_handleNodeClick_iter (p : Puzzle) (r : ℤ) (s : GameState)
    (l : List ClickIntent) (h : Reachable p s) : Reachable p (applyClicks r s l) := by
  induction l generalizing s with
  | nil => exact h
  | cons c rest ih => exact ih _ (Reachable.click r c.x c.y c.fromNode h)

theorem reachable_undoN (p : Puzzle) (n : Nat) (s : GameState)
    (h : Reachable p s) : Reachable p (undoN n s) := by
  induction n generalizing s with
  | zero => exact h
  | succ k ih =>
    rw [undoN, Function.iterate_succ_apply]
    exact ih _ (Reachable.undo h)

theorem applyClicks_length_of_ne_nil (r : ℤ) (l : List ClickIntent) :
    ∀ s : GameState, s.route ≠ [] → visitStepsOk r s l = true →
      (applyClicks r s l).route.length = s.route.length + l.length := by
  induction l with
  | nil => intro s _ _; simp [applyClicks]
  | cons c rest ih =>
    intro s hne hok
    rw [visitStepsOk, Bool.and_eq_true] at hok
    obtain ⟨hlen, hrest⟩ := hok
    have hz : (s.route.length == 0) = false := by
      simp [List.length_eq_zero]
      exact hne
    rw [hz] at hlen
    simp only [beq_iff_eq] at hlen
    simp at hlen
    have hne2 : (handleNodeClick r c.x c.y c.fromNode s).route ≠ [] := by
      intro he
      rw [he] at hlen
      simp at hlen
    have := ih (handleNodeClick r c.x c.y c.fromNode s) hne2 hrest
    show (applyClicks r (handleNodeClick r c.x c.y c.fromNode s) rest).route.length = _
    rw [this, hlen]
    simp
    omega

theorem applyClicks_length_from_empty (p : Puzzle) (r : ℤ) (l : List ClickIntent)
    (hne : l ≠ []) (hok : visitStepsOk r (initState p) l = true) :
    (applyClicks r (initState p) l).route.length = l.length + 1 := by
  cases l with
  | nil => exact absurd rfl hne
  | cons c rest =>
    rw [visitStepsOk, Bool.and_eq_true] at hok
    obtain ⟨hlen, hrest⟩ := hok
    have hz : ((initState p).route.length == 0) = true := by rfl
    rw [hz] at hlen
    simp only [beq_iff_eq, if_pos] at hlen
    have h2 : (handleNodeClick r c.x c.y c.fromNode (initState p)).route.length = 2 := by
      simpa [initState] using hlen
    have hne2 : (handleNodeClick r c.x c.y c.fromNode (initState p)).route ≠ [] := by
      intro he
      rw [he] at h2
      simp at h2
    have := applyClicks_length_of_ne_nil r rest _ hne2 hrest
    show (applyClicks r (handleNodeClick r c.x c.y c.fromNode (initState p)) rest).route.length = _
    rw [this, h2]
    simp
    omega

theorem undoN_route_length (k : Nat) :
    ∀ s : GameState, k ≤ s.route.length →
      (undoN k s).route.length = s.route.length - k := by
  induction k with
  | zero => intro s _; simp [undoN]
  | succ n ih =>
    intro s hk
    rw [undoN, Function.iterate_succ_apply]
    have h1 : (undoLastMove s).route.length = s.route.length - 1 := by
      rw [undoLastMove_route_dropLast, List.length_dropLast]
    have h2 : n ≤ (undoLastMove s).route.length := by omega
    have := ih (undoLastMove s) h2
    rw [undoN] at this
    rw [this, h1]
    omega

theorem eq_singleton_of_length_one_head (l : List Node) (n : Node)
    (hlen : l.length = 1) (hh : l.head? = some n) : l = [n] := by
  cases l with
  | nil => simp at hlen
  | cons a t =>
    cases t with
    | nil =>
      simp at hh
      rw [hh]
    | cons b t2 => simp at hlen

/-! ### Concrete instances used by witnesses and counterexamples -/

/-- A one-house puzzle (depot at (100,100), house 1 at (200,200)). -/
def pz1 : Puzzle :=
  { date := "2025-12-24"
    north_pole := { x := 100, y := 100 }
    houses := [{ id := 1, x := 200, y := 200 }]
    optimal_distance := 500 }

/-- The two-house puzzle of the hook's unit tests (houses 1 and 2). -/
def pz2 : Puzzle :=
  { date := "2025-12-24"
    north_pole := { x := 100, y := 100 }
    houses := [{ id := 1, x := 200, y := 200 }, { id := 2, x := 300, y := 300 }]
    optimal_distance := 500 }

/-- A concrete stand-in for calculateDistance used in witnesses (the claims
hold for every distance function). -/
def dist600 : List Node → ℚ := fun _ => 600

/-! ### Shape of findNodeAt results -/

theorem findNodeAt_shape (p : Puzzle) (r x y : ℤ) (t : Node)
    (h : findNodeAt p r x y = some t) :
    t = npNode p ∨ ∃ hs ∈ p.houses, t = Node.house hs.id hs.x hs.y := by
  unfold findNodeAt at h
  split at h
  · exact Or.inl (Option.some.inj h).symm
  · right
    rcases hf : p.houses.find? fun hs => distSq x y hs.x hs.y < 900 with _ | hs
    · rcases hf2 : p.houses.find? fun hs => distSq x y hs.x hs.y < r * r with _ | hs
      · rw [hf2] at h
        exact Option.noConfusion h
      · rw [hf2] at h
        exact ⟨hs, List.mem_of_find?_eq_some hf2, (Option.some.inj h).symm⟩
    · rcases hf2 : p.houses.find? fun hs => distSq x y hs.x hs.y < r * r with _ | hs2
      · rw [hf2] at h
        exact Option.noConfusion h
      · rw [hf2] at h
        exact ⟨hs2, List.mem_of_find?_eq_some hf2, (Option.some.inj h).symm⟩

theorem targetFrom_np (p : Puzzle) (x y : ℤ)
    (h : distSq x y p.north_pole.x p.north_pole.y < 900) :
    targetFrom p x y = some (npNode p) := by
  unfold targetFrom
  rw [if_pos h]

theorem fromMismatch_self (n : Node) : fromMismatch n n = false := by
  cases n with
  | north_pole x y => simp [fromMismatch]
  | house id x y => simp [fromMismatch]

/-- The full-visited condition and the card test of the source agree when
the visited set only holds real house ids and house ids are unique. -/
theorem visited_card_iff (s : GameState)
    (hsub : ∀ i ∈ s.visitedHouses, i ∈ s.puzzle.houses.map House.id)
    (hpid : (s.puzzle.houses.map House.id).Nodup) :
    s.visitedHouses.card = s.puzzle.houses.length ↔
      ∀ h ∈ s.puzzle.houses, h.id ∈ s.visitedHouses := by
  have hsubf : s.visitedHouses ⊆ (s.puzzle.houses.map House.id).toFinset := by
    intro i hi
    exact List.mem_toFinset.mpr (hsub i hi)
  have hcard : (s.puzzle.houses.map House.id).toFinset.card = s.puzzle.houses.length := by
    rw [toFinset_card_of_nodup _ hpid, List.length_map]
  constructor
  · intro hc h hh
    have heq : s.visitedHouses = (s.puzzle.houses.map House.id).toFinset :=
      Finset.eq_of_subset_of_card_le hsubf (by omega)
    rw [heq, List.mem_toFinset]
    exact List.mem_map_of_mem House.id hh
  · intro hall
    have hsup : (s.puzzle.houses.map House.id).toFinset ⊆ s.visitedHouses := by
      intro i hi
      rw [List.mem_toFinset, List.mem_map] at hi
      obtain ⟨h, hh, rfl⟩ := hi
      exact hall h hh
    rw [Finset.Subset.antisymm hsubf hsup, hcard]

/-! ### Claim theorems -/

/-- Claim C5: in every state reachable from the post-load empty state by
handleNodeClick, undoLastMove and resetRoute operations, the visited set
equals exactly the set of Destination ids appearing in the route, no
Destination id appears twice in the route, and the first route element
(when the route is non-empty) is the Depot. -/
theorem claim_C5_route_invariants (p : Puzzle) (s : GameState) (h : Reachable p s) :
    s.visitedHouses = (routeHouseIds s.route).toFinset ∧
    (routeHouseIds s.route).Nodup ∧
    ∀ n, s.route.head? = some n → n = npNode p := by
  obtain ⟨_, hnd, hv, hh⟩ := routeInv_of_reachable p s h
  exact ⟨hv, hnd, hh⟩

/-- Witness for C5 at the reachable state reached by one house click on the
two-house puzzle. -/
theorem claim_C5_route_invariants_witness :
    (handleNodeClick 30 200 200 none (initState pz2)).visitedHouses =
      (routeHouseIds (handleNodeClick 30 200 200 none (initState pz2)).route).toFinset ∧
    (routeHouseIds (handleNodeClick 30 200 200 none (initState pz2)).route).Nodup ∧
    ∀ n, (handleNodeClick 30 200 200 none (initState pz2)).route.head? = some n →
      n = npNode pz2 :=
  claim_C5_route_invariants pz2 _ (Reachable.click 30 200 200 none Reachable.init)

/-- Claim C4 (amended): after N ≥ 1 legal VisitNode intents from the empty
state, N matching Undo intents return the visited set to empty and the
route to the single opening Depot node (length 1, not length 0 as the
original claim states); one further Undo then empties the route. -/
theorem claim_C4_amended (p : Puzzle) (r : ℤ) (l : List ClickIntent)
    (hne : l ≠ []) (hok : visitStepsOk r (initState p) l = true) :
    (undoN l.length (applyClicks r (initState p) l)).route = [npNode p] ∧
    (undoN l.length (applyClicks r (initState p) l)).visitedHouses = ∅ ∧
    (undoLastMove (undoN l.length (applyClicks r (initState p) l))).route = [] := by
  have hlen : (applyClicks r (initState p) l).route.length = l.length + 1 :=
    applyClicks_length_from_empty p r l hne hok
  have hle : l.length ≤ (applyClicks r (initState p) l).route.length := by omega
  have hflen : (undoN l.length (applyClicks r (initState p) l)).route.length = 1 := by
    rw [undoN_route_length l.length _ hle, hlen]
    omega
  have hreach : Reachable p (undoN l.length (applyClicks r (initState p) l)) :=
    reachable_undoN p l.length _ (reachable_handleNodeClick_iter p r _ l Reachable.init)
  obtain ⟨_, hnd, hv, hh⟩ := routeInv_of_reachable p _ hreach
  obtain ⟨n, t, hroute⟩ :
      ∃ n t, (undoN l.length (applyClicks r (initState p) l)).route = n :: t := by
    cases hr : (undoN l.length (applyClicks r (initState p) l)).route with
    | nil => rw [hr] at hflen; simp at hflen
    | cons a t => exact ⟨a, t, rfl⟩
  have hhead : (undoN l.length (applyClicks r (initState p) l)).route.head? = some n := by
    rw [hroute]; rfl
  have hn : n = npNode p := hh n hhead
  have hsingle : (undoN l.length (applyClicks r (initState p) l)).route = [n] :=
    eq_singleton_of_length_one_head _ n hflen hhead
  refine ⟨hn ▸ hsingle, ?_, ?_⟩
  · rw [hv, hsingle, hn]
    simp [routeHouseIds, npNode]
  · rw [undoLastMove_route_dropLast, hsingle]
    rfl

/-- Witness for C4 (amended) at the one-house puzzle with a single visit. -/
theorem claim_C4_amended_witness :
    (undoN 1 (applyClicks 30 (initState pz1) [ClickIntent.mk 200 200 none])).route =
      [npNode pz1] ∧
    (undoN 1 (applyClicks 30 (initState pz1) [ClickIntent.mk 200 200 none])).visitedHouses = ∅ ∧
    (undoLastMove (undoN 1 (applyClicks 30 (initState pz1)
      [ClickIntent.mk 200 200 none]))).route = [] := by
  have h := claim_C4_amended pz1 30 [ClickIntent.mk 200 200 none] (by decide) (by decide)
  simpa using h

/-- Counterexample for C4 as stated: one legal visit followed by one undo
leaves the route at the opening depot (length 1), not at the Empty state
(length 0). -/
theorem claim_C4_counterexample :
    visitStepsOk 30 (initState pz1) [ClickIntent.mk 200 200 none] = true ∧
    (undoN 1 (applyClicks 30 (initState pz1) [ClickIntent.mk 200 200 none])).route ≠ [] ∧
    (undoN 1 (applyClicks 30 (initState pz1)
      [ClickIntent.mk 200 200 none])).visitedHouses = ∅ := by
  refine ⟨by decide, by decide, by decide⟩

/-- Claim C10: when the difficulty is hard, toggleSolution refuses the
request: the state (in particular showingSolution, solutionRoute and
solutionAnimationIndex) is unchanged and loadSolution is never invoked
(the Bool component is false). -/
theorem claim_C10_hard_solution_refused (loadResult : Option (List Node))
    (s : GameState) :
    toggleSolution "hard" loadResult s = (s, false) := by
  simp [toggleSolution]

/-- Claim C3 (amended): while the game-complete flag is set (so the route
ends at the closing depot and every house is visited), handleNodeClick with
no fromNode hint never adds a node: it leaves the route and visited set
unchanged, or pops the closing depot leaving the visited set unchanged (a
Retreat).  The original claim also covered calls with a fromNode hint, which
the counterexample refutes. -/
theorem claim_C3_amended (r x y : ℤ) (s : GameState)
    (hc : s.gameComplete = true)
    (hlast : s.route.getLast? = some (npNode s.puzzle))
    (hvis : ∀ h ∈ s.puzzle.houses, h.id ∈ s.visitedHouses) :
    ((handleNodeClick r x y none s).route = s.route ∧
      (handleNodeClick r x y none s).visitedHouses = s.visitedHouses) ∨
    ((handleNodeClick r x y none s).route = s.route.dropLast ∧
      (handleNodeClick r x y none s).visitedHouses = s.visitedHouses) := by
  unfold handleNodeClick
  dsimp only
  rcases hf : findNodeAt s.puzzle r x y with _ | t
  · exact Or.inl ⟨rfl, rfl⟩
  · rcases findNodeAt_shape s.puzzle r x y t hf with ht | ⟨hs, hmem, ht⟩
    · subst ht
      simp only [npNode, hlast]
      simp only [Bool.false_eq_true, if_false]
      rw [if_pos (by simp [isSameNode] : (isSameNode
        (Node.north_pole s.puzzle.north_pole.x s.puzzle.north_pole.y)
        (Node.north_pole s.puzzle.north_pole.x s.puzzle.north_pole.y)) = true)]
      right
      exact ⟨rfl, by simp [retreatPop, hlast, npNode]⟩
    · subst ht
      have hm : hs.id ∈ s.visitedHouses := hvis hs hmem
      dsimp only
      rw [if_pos (by simp [hm] : decide (hs.id ∈ s.visitedHouses) = true)]
      exact Or.inl ⟨rfl, rfl⟩

/-- Witness for C3 (amended) at the completed one-house puzzle. -/
theorem claim_C3_amended_witness :
    ((handleNodeClick 30 100 100 none (afterCheck dist600 0
        (handleNodeClick 30 100 100 (some (Node.house 1 200 200))
          (handleNodeClick 30 200 200 none (initState pz1))))).route =
      (afterCheck dist600 0 (handleNodeClick 30 100 100 (some (Node.house 1 200 200))
        (handleNodeClick 30 200 200 none (initState pz1)))).route ∧
     (handleNodeClick 30 100 100 none (afterCheck dist600 0
        (handleNodeClick 30 100 100 (some (Node.house 1 200 200))
          (handleNodeClick 30 200 200 none (initState pz1))))).visitedHouses =
      (afterCheck dist600 0 (handleNodeClick 30 100 100 (some (Node.house 1 200 200))
        (handleNodeClick 30 200 200 none (initState pz1)))).visitedHouses) ∨
    ((handleNodeClick 30 100 100 none (afterCheck dist600 0
        (handleNodeClick 30 100 100 (some (Node.house 1 200 200))
          (handleNodeClick 30 200 200 none (initState pz1))))).route =
      (afterCheck dist600 0 (handleNodeClick 30 100 100 (some (Node.house 1 200 200))
        (handleNodeClick 30 200 200 none (initState pz1)))).route.dropLast ∧
     (handleNodeClick 30 100 100 none (afterCheck dist600 0
        (handleNodeClick 30 100 100 (some (Node.house 1 200 200))
          (handleNodeClick 30 200 200 none (initState pz1))))).visitedHouses =
      (afterCheck dist600 0 (handleNodeClick 30 100 100 (some (Node.house 1 200 200))
        (handleNodeClick 30 200 200 none (initState pz1)))).visitedHouses) :=
  claim_C3_amended 30 100 100 _ (by decide) (by decide) (by decide)

/-- Counterexample for C3 as stated: in a completed game, a VisitNode
intent carrying a fromNode hint equal to the closing depot and targeting
the depot appends another depot node to the route, so a VisitNode intent
can change the route while the game-complete flag is set. -/
theorem claim_C3_counterexample :
    (afterCheck dist600 0 (handleNodeClick 30 100 100 (some (Node.house 1 200 200))
      (handleNodeClick 30 200 200 none (initState pz1)))).gameComplete = true ∧
    (handleNodeClick 30 100 100 (some (npNode pz1))
      (afterCheck dist600 0 (handleNodeClick 30 100 100 (some (Node.house 1 200 200))
        (handleNodeClick 30 200 200 none (initState pz1))))).route =
    (afterCheck dist600 0 (handleNodeClick 30 100 100 (some (Node.house 1 200 200))
      (handleNodeClick 30 200 200 none (initState pz1)))).route ++ [npNode pz1] := by
  refine ⟨by decide, by decide⟩

/-- Remove a popped node's id from the visited set (house nodes only). -/
def popVisited (visited : Finset Nat) : Node → Finset Nat
  | Node.house id _ _ => visited.erase id
  | Node.north_pole _ _ => visited

/-- Claim C7 (amended): a Retreat tap — handleNodeClick with no hint whose
resolved target matches the last or second-to-last route node and is not
blocked as an already-visited house — pops exactly the last node, erases
its id from the visited set when it is a house, and clears the
game-complete and completion-reminder flags; unlike undoLastMove it leaves
the attempt-started flag (and the attempt counter) unchanged even when the
route collapses to length ≤ 1. -/
theorem claim_C7_amended (r x y : ℤ) (s : GameState) (t lastN : Node)
    (hfind : findNodeAt s.puzzle r x y = some t)
    (hnb : ∀ id hx hy, t = Node.house id hx hy → id ∉ s.visitedHouses)
    (hlast : s.route.getLast? = some lastN)
    (hmatch : isSameNode t lastN = true ∨
      ∃ sl, s.route.dropLast.getLast? = some sl ∧ isSameNode t sl = true) :
    handleNodeClick r x y none s = retreatPop s ∧
    (retreatPop s).route = s.route.dropLast ∧
    (retreatPop s).visitedHouses = popVisited s.visitedHouses lastN ∧
    (retreatPop s).gameComplete = false ∧
    (retreatPop s).showReminder = false ∧
    (retreatPop s).currentAttemptStarted = s.currentAttemptStarted ∧
    (retreatPop s).attempts = s.attempts := by
  have hvisited : (retreatPop s).visitedHouses = popVisited s.visitedHouses lastN := by
    simp only [retreatPop, hlast]
    cases lastN <;> rfl
  refine ⟨?_, rfl, hvisited, rfl, rfl, rfl, rfl⟩
  unfold handleNodeClick
  dsimp only
  rw [hfind]
  dsimp only
  cases t with
  | north_pole tx ty =>
    dsimp only
    simp only [Bool.false_eq_true, if_false, hlast]
    rcases hmatch with h1 | ⟨sl, hsl, h2⟩
    · rw [if_pos h1]
    · by_cases h1b : isSameNode (Node.north_pole tx ty) lastN = true
      · rw [if_pos h1b]
      · rw [if_neg h1b, hsl]
        dsimp only
        rw [if_pos h2]
  | house id tx ty =>
    have hm : id ∉ s.visitedHouses := hnb id tx ty rfl
    dsimp only
    rw [if_neg (by simpa using hm)]
    rw [hlast]
    dsimp only
    rcases hmatch with h1 | ⟨sl, hsl, h2⟩
    · rw [if_pos h1]
    · by_cases h1b : isSameNode (Node.house id tx ty) lastN = true
      · rw [if_pos h1b]
      · rw [if_neg h1b, hsl]
        dsimp only
        rw [if_pos h2]

/-- Witness for C7 (amended): tapping the depot behind the tip of the route
[Depot, house 1] pops house 1. -/
theorem claim_C7_amended_witness :
    handleNodeClick 30 100 100 none (handleNodeClick 30 200 200 none (initState pz2)) =
      retreatPop (handleNodeClick 30 200 200 none (initState pz2)) ∧
    (retreatPop (handleNodeClick 30 200 200 none (initState pz2))).route =
      (handleNodeClick 30 200 200 none (initState pz2)).route.dropLast ∧
    (retreatPop (handleNodeClick 30 200 200 none (initState pz2))).visitedHouses =
      popVisited (handleNodeClick 30 200 200 none (initState pz2)).visitedHouses
        (Node.house 1 200 200) ∧
    (retreatPop (handleNodeClick 30 200 200 none (initState pz2))).gameComplete = false ∧
    (retreatPop (handleNodeClick 30 200 200 none (initState pz2))).showReminder = false ∧
    (retreatPop (handleNodeClick 30 200 200 none (initState pz2))).currentAttemptStarted =
      (handleNodeClick 30 200 200 none (initState pz2)).currentAttemptStarted ∧
    (retreatPop (handleNodeClick 30 200 200 none (initState pz2))).attempts =
      (handleNodeClick 30 200 200 none (initState pz2)).attempts :=
  claim_C7_amended 30 100 100 _ (npNode pz2) (Node.house 1 200 200)
    (by decide) (by intro id hx hy h; exact Node.noConfusion h)
    (by decide)
    (Or.inr ⟨npNode pz2, by decide, by decide⟩)

/-- Counterexample for C7 as stated: on the two-house puzzle, tapping the
depot behind the tip of [Depot, house 1] pops the route to length 1, yet
the attempt-started flag remains set (the collapse guard lives only in
undoLastMove, not in the targeted Retreat). -/
theorem claim_C7_counterexample :
    (handleNodeClick 30 200 200 none (initState pz2)).currentAttemptStarted = true ∧
    (handleNodeClick 30 100 100 none
      (handleNodeClick 30 200 200 none (initState pz2))).route = [npNode pz2] ∧
    (handleNodeClick 30 100 100 none
      (handleNodeClick 30 200 200 none (initState pz2))).currentAttemptStarted = true := by
  refine ⟨by decide, by decide, by decide⟩

/-- Claim C6: with the route Open (non-empty), a VisitNode intent targeting
the Depot — here the drag form carrying the route tail as its fromNode
hint, the form that is never decoded as a Retreat — appends the Depot,
closing the tour, exactly when all of the puzzle's destinations are visited
and either the route length exceeds 1 or the last route element is not the
Depot; otherwise (in particular, any premature close) the intent is
rejected silently: the whole state, flags included, is unchanged. -/
theorem claim_C6_close_tour (r x y : ℤ) (s : GameState) (lastN : Node)
    (hlast : s.route.getLast? = some lastN)
    (hhit : distSq x y s.puzzle.north_pole.x s.puzzle.north_pole.y < 900)
    (hsub : ∀ i ∈ s.visitedHouses, i ∈ s.puzzle.houses.map House.id)
    (hpid : (s.puzzle.houses.map House.id).Nodup) :
    (((∀ h ∈ s.puzzle.houses, h.id ∈ s.visitedHouses) ∧
        (1 < s.route.length ∨ lastN.isNP = false)) →
      handleNodeClick r x y (some lastN) s =
        { s with route := s.route ++ [npNode s.puzzle], showReminder := false }) ∧
    ((¬ ((∀ h ∈ s.puzzle.houses, h.id ∈ s.visitedHouses) ∧
        (1 < s.route.length ∨ lastN.isNP = false))) →
      handleNodeClick r x y (some lastN) s = s) := by
  have hne : s.route ≠ [] := by
    intro he
    rw [he] at hlast
    exact Option.noConfusion hlast
  have hlen0 : s.route.length ≠ 0 := by
    simpa [List.length_eq_zero] using hne
  have hred : handleNodeClick r x y (some lastN) s = applyTarget (npNode s.puzzle) s := by
    unfold handleNodeClick
    dsimp only
    rw [targetFrom_np s.puzzle x y hhit]
    dsimp only
    rw [hlast]
    dsimp only
    rw [fromMismatch_self]
    simp
  have hlastNP : lastIsNP s.route = lastN.isNP := by
    rw [lastIsNP, hlast]
    rfl
  have hcardiff := visited_card_iff s hsub hpid
  rw [hred]
  unfold applyTarget
  simp only [npNode]
  constructor
  · rintro ⟨hall, hor⟩
    have hcard : s.visitedHouses.card = s.puzzle.houses.length := hcardiff.mpr hall
    rcases hor with hgt | hnp
    · rw [if_neg hlen0, if_pos ⟨hgt, hcard⟩]
    · by_cases hgt : 1 < s.route.length
      · rw [if_neg hlen0, if_pos ⟨hgt, hcard⟩]
      · rw [if_neg hlen0, if_neg (by intro h; exact hgt h.1)]
        rw [if_pos (by rw [hlastNP, hnp]; simp), if_pos hcard]
  · intro hnot
    by_cases hall : ∀ h ∈ s.puzzle.houses, h.id ∈ s.visitedHouses
    · have hor : ¬ (1 < s.route.length ∨ lastN.isNP = false) := fun h => hnot ⟨hall, h⟩
      push_neg at hor
      obtain ⟨hle, hnp⟩ := hor
      have hnp2 : lastN.isNP = true := by simpa using hnp
      rw [if_neg hlen0, if_neg (by intro h; omega)]
      rw [if_neg (by rw [hlastNP]; simp [hnp2])]
    · have hcard : ¬ s.visitedHouses.card = s.puzzle.houses.length := fun h =>
        hall (hcardiff.mp h)
      rw [if_neg hlen0, if_neg (by intro h; exact hcard h.2)]
      by_cases hnp2 : lastIsNP s.route
      · rw [if_neg (by simpa using hnp2)]
      · rw [if_pos (by simpa using hnp2), if_neg hcard]

/-- Witness for C6: on the one-house puzzle with route [Depot, house 1] and
house 1 visited, dragging from the tip onto the depot closes the tour. -/
theorem claim_C6_close_tour_witness :
    (((∀ h ∈ pz1.houses, h.id ∈
        (handleNodeClick 30 200 200 none (initState pz1)).visitedHouses) ∧
        (1 < (handleNodeClick 30 200 200 none (initState pz1)).route.length ∨
          (Node.house 1 200 200).isNP = false)) →
      handleNodeClick 30 100 100 (some (Node.house 1 200 200))
          (handleNodeClick 30 200 200 none (initState pz1)) =
        { handleNodeClick 30 200 200 none (initState pz1) with
            route := (handleNodeClick 30 200 200 none (initState pz1)).route ++
              [npNode pz1],
            showReminder := false }) ∧
    ((¬ ((∀ h ∈ pz1.houses, h.id ∈
        (handleNodeClick 30 200 200 none (initState pz1)).visitedHouses) ∧
        (1 < (handleNodeClick 30 200 200 none (initState pz1)).route.length ∨
          (Node.house 1 200 200).isNP = false))) →
      handleNodeClick 30 100 100 (some (Node.house 1 200 200))
          (handleNodeClick 30 200 200 none (initState pz1)) =
        handleNodeClick 30 200 200 none (initState pz1)) :=
  claim_C6_close_tour 30 100 100 (handleNodeClick 30 200 200 none (initState pz1))
    (Node.house 1 200 200) (by decide) (by decide) (by decide) (by decide)

/-- Claim C8: the attempt counter over the start-complete-undo-complete
scenario on the two-house puzzle is incremented exactly twice, and in
general a transition into the complete state increments the counter exactly
when an attempt was in progress, clearing the in-progress flag when it
does. -/
theorem claim_C8_attempt_counting :
    ((afterCheck dist600 0 (handleNodeClick 30 100 100 none
        (afterCheck dist600 0 (handleNodeClick 30 300 300 none
          (afterCheck dist600 0 (handleNodeClick 30 200 200 none
            (initState pz2))))))).attempts = 1 ∧
     (afterCheck dist600 0 (handleNodeClick 30 100 100 none
        (afterCheck dist600 0 (undoLastMove
          (afterCheck dist600 0 (handleNodeClick 30 100 100 none
            (afterCheck dist600 0 (handleNodeClick 30 300 300 none
              (afterCheck dist600 0 (handleNodeClick 30 200 200 none
                (initState pz2))))))))))).attempts = 2) ∧
    ∀ (dist : List Node → ℚ) (now : Nat) (s : GameState),
      s.gameComplete = false →
      (afterCheck dist now s).gameComplete = true →
      ((s.currentAttemptStarted = true →
          (afterCheck dist now s).attempts = s.attempts + 1 ∧
          (afterCheck dist now s).currentAttemptStarted = false) ∧
       (s.currentAttemptStarted = false →
          (afterCheck dist now s).attempts = s.attempts ∧
          (afterCheck dist now s).currentAttemptStarted = false)) := by
  refine ⟨⟨by decide, by decide⟩, ?_⟩
  intro dist now s hnc hc
  unfold afterCheck checkWinCondition at hc ⊢
  by_cases h1 : s.route.length < 2
  · rw [if_pos h1] at hc
    rw [hnc] at hc
    exact absurd hc (by simp)
  · rw [if_neg h1] at hc ⊢
    by_cases h2 : (headIsNP s.route && lastIsNP s.route) = true
    · rw [if_pos h2] at hc ⊢
      by_cases h3 : s.visitedHouses.card = s.puzzle.houses.length
      · rw [if_pos h3] at hc ⊢
        dsimp only at hc ⊢
        by_cases h4 : (routeHouseIds s.route).toFinset.card ≠ s.puzzle.houses.length ∨
            (routeHouseIds s.route).length ≠ s.puzzle.houses.length
        · rw [if_pos h4] at hc
          rw [hnc] at hc
          exact absurd hc (by simp)
        · rw [if_neg h4]
          rw [hnc]
          constructor
          · intro hst
            rw [hst]
            exact ⟨rfl, rfl⟩
          · intro hst
            rw [hst]
            exact ⟨rfl, rfl⟩
      · rw [if_neg h3] at hc
        rw [hnc] at hc
        exact absurd hc (by simp)
    · rw [if_neg h2] at hc
      rw [hnc] at hc
      exact absurd hc (by simp)

/-- Witness for C8's general transition rule at the ready-to-complete
one-house state. -/
theorem claim_C8_attempt_counting_witness :
    ((handleNodeClick 30 100 100 (some (Node.house 1 200 200))
        (handleNodeClick 30 200 200 none (initState pz1))).currentAttemptStarted = true →
      (afterCheck dist600 0 (handleNodeClick 30 100 100 (some (Node.house 1 200 200))
        (handleNodeClick 30 200 200 none (initState pz1)))).attempts =
        (handleNodeClick 30 100 100 (some (Node.house 1 200 200))
          (handleNodeClick 30 200 200 none (initState pz1))).attempts + 1 ∧
      (afterCheck dist600 0 (handleNodeClick 30 100 100 (some (Node.house 1 200 200))
        (handleNodeClick 30 200 200 none
          (initState pz1)))).currentAttemptStarted = false) ∧
    ((handleNodeClick 30 100 100 (some (Node.house 1 200 200))
        (handleNodeClick 30 200 200 none (initState pz1))).currentAttemptStarted = false →
      (afterCheck dist600 0 (handleNodeClick 30 100 100 (some (Node.house 1 200 200))
        (handleNodeClick 30 200 200 none (initState pz1)))).attempts =
        (handleNodeClick 30 100 100 (some (Node.house 1 200 200))
          (handleNodeClick 30 200 200 none (initState pz1))).attempts ∧
      (afterCheck dist600 0 (handleNodeClick 30 100 100 (some (Node.house 1 200 200))
        (handleNodeClick 30 200 200 none
          (initState pz1)))).currentAttemptStarted = false) :=
  claim_C8_attempt_counting.2 dist600 0
    (handleNodeClick 30 100 100 (some (Node.house 1 200 200))
      (handleNodeClick 30 200 200 none (initState pz1)))
    (by decide) (by decide)

/-- The evaluator's count-based re-validation agrees with the claim's
set-based one when the route's house ids all come from the puzzle and the
puzzle's house ids are unique. -/
theorem validation_bridge (s : GameState)
    (hsub : ∀ i ∈ routeHouseIds s.route, i ∈ s.puzzle.houses.map House.id)
    (hpid : (s.puzzle.houses.map House.id).Nodup) :
    ((routeHouseIds s.route).toFinset.card = s.puzzle.houses.length ∧
      (routeHouseIds s.route).length = s.puzzle.houses.length) ↔
    ((routeHouseIds s.route).Nodup ∧
      (routeHouseIds s.route).toFinset = (s.puzzle.houses.map House.id).toFinset) := by
  have hpcard : (s.puzzle.houses.map House.id).toFinset.card = s.puzzle.houses.length := by
    rw [toFinset_card_of_nodup _ hpid, List.length_map]
  have hsubf : (routeHouseIds s.route).toFinset ⊆ (s.puzzle.houses.map House.id).toFinset := by
    intro i hi
    exact List.mem_toFinset.mpr (hsub i (List.mem_toFinset.mp hi))
  constructor
  · rintro ⟨hcard, hlen⟩
    refine ⟨nodup_of_toFinset_card _ (by omega), ?_⟩
    exact Finset.eq_of_subset_of_card_le hsubf (by omega)
  · rintro ⟨hnd, heq⟩
    have h1 : (routeHouseIds s.route).toFinset.card = s.puzzle.houses.length := by
      rw [heq, hpcard]
    exact ⟨h1, by rw [← toFinset_card_of_nodup _ hnd, h1]⟩

/-- Claim C1: the win evaluator sets the game-complete flag only when the
route has length ≥ 2, starts and ends at the Depot, the visited set is
full, and the independent structural re-validation passes (no duplicate
house ids and the route's house-id set equals the puzzle's full id set);
and when the win precondition holds but the re-validation fails, the
evaluator aborts with no state change and no emitted record. -/
theorem claim_C1_win_validation (dist : List Node → ℚ) (now : Nat) (s : GameState)
    (hsub : ∀ i ∈ routeHouseIds s.route, i ∈ s.puzzle.houses.map House.id)
    (hpid : (s.puzzle.houses.map House.id).Nodup) :
    ((checkWinCondition dist now s).1.gameComplete = true →
      s.gameComplete = true ∨
      (2 ≤ s.route.length ∧ headIsNP s.route = true ∧ lastIsNP s.route = true ∧
        s.visitedHouses.card = s.puzzle.houses.length ∧
        (routeHouseIds s.route).Nodup ∧
        (routeHouseIds s.route).toFinset = (s.puzzle.houses.map House.id).toFinset)) ∧
    (2 ≤ s.route.length → headIsNP s.route = true → lastIsNP s.route = true →
      s.visitedHouses.card = s.puzzle.houses.length →
      ¬ ((routeHouseIds s.route).Nodup ∧
        (routeHouseIds s.route).toFinset = (s.puzzle.houses.map House.id).toFinset) →
      checkWinCondition dist now s = (s, none)) := by
  have hbridge := validation_bridge s hsub hpid
  constructor
  · intro hc
    unfold checkWinCondition at hc
    by_cases h1 : s.route.length < 2
    · rw [if_pos h1] at hc
      exact Or.inl hc
    · rw [if_neg h1] at hc
      by_cases h2 : (headIsNP s.route && lastIsNP s.route) = true
      · rw [if_pos h2] at hc
        by_cases h3 : s.visitedHouses.card = s.puzzle.houses.length
        · rw [if_pos h3] at hc
          dsimp only at hc
          by_cases h4 : (routeHouseIds s.route).toFinset.card ≠ s.puzzle.houses.length ∨
              (routeHouseIds s.route).length ≠ s.puzzle.houses.length
          · rw [if_pos h4] at hc
            exact Or.inl hc
          · push_neg at h4
            rw [Bool.and_eq_true] at h2
            right
            have hval := hbridge.mp ⟨h4.1, h4.2⟩
            exact ⟨by omega, h2.1, h2.2, h3, hval.1, hval.2⟩
        · rw [if_neg h3] at hc
          exact Or.inl hc
      · rw [if_neg h2] at hc
        exact Or.inl hc
  · intro hl hh hlast hcard hnval
    have h4 : (routeHouseIds s.route).toFinset.card ≠ s.puzzle.houses.length ∨
        (routeHouseIds s.route).length ≠ s.puzzle.houses.length := by
      by_contra hno
      push_neg at hno
      exact hnval (hbridge.mp ⟨hno.1, hno.2⟩)
    unfold checkWinCondition
    rw [if_neg (by omega), if_pos (by rw [Bool.and_eq_true]; exact ⟨hh, hlast⟩)]
    rw [if_pos hcard]
    dsimp only
    rw [if_pos h4]

/-- Witness for C1 at the completed one-house route. -/
theorem claim_C1_win_validation_witness :
    ((checkWinCondition dist600 0 (handleNodeClick 30 100 100 (some (Node.house 1 200 200))
        (handleNodeClick 30 200 200 none (initState pz1)))).1.gameComplete = true →
      (handleNodeClick 30 100 100 (some (Node.house 1 200 200))
        (handleNodeClick 30 200 200 none (initState pz1))).gameComplete = true ∨
      (2 ≤ (handleNodeClick 30 100 100 (some (Node.house 1 200 200))
          (handleNodeClick 30 200 200 none (initState pz1))).route.length ∧
        headIsNP (handleNodeClick 30 100 100 (some (Node.house 1 200 200))
          (handleNodeClick 30 200 200 none (initState pz1))).route = true ∧
        lastIsNP (handleNodeClick 30 100 100 (some (Node.house 1 200 200))
          (handleNodeClick 30 200 200 none (initState pz1))).route = true ∧
        (handleNodeClick 30 100 100 (some (Node.house 1 200 200))
          (handleNodeClick 30 200 200 none (initState pz1))).visitedHouses.card =
          pz1.houses.length ∧
        (routeHouseIds (handleNodeClick 30 100 100 (some (Node.house 1 200 200))
          (handleNodeClick 30 200 200 none (initState pz1))).route).Nodup ∧
        (routeHouseIds (handleNodeClick 30 100 100 (some (Node.house 1 200 200))
          (handleNodeClick 30 200 200 none (initState pz1))).route).toFinset =
          (pz1.houses.map House.id).toFinset)) ∧
    (2 ≤ (handleNodeClick 30 100 100 (some (Node.house 1 200 200))
        (handleNodeClick 30 200 200 none (initState pz1))).route.length →
      headIsNP (handleNodeClick 30 100 100 (some (Node.house 1 200 200))
        (handleNodeClick 30 200 200 none (initState pz1))).route = true →
      lastIsNP (handleNodeClick 30 100 100 (some (Node.house 1 200 200))
        (handleNodeClick 30 200 200 none (initState pz1))).route = true →
      (handleNodeClick 30 100 100 (some (Node.house 1 200 200))
        (handleNodeClick 30 200 200 none (initState pz1))).visitedHouses.card =
        pz1.houses.length →
      ¬ ((routeHouseIds (handleNodeClick 30 100 100 (some (Node.house 1 200 200))
          (handleNodeClick 30 200 200 none (initState pz1))).route).Nodup ∧
        (routeHouseIds (handleNodeClick 30 100 100 (some (Node.house 1 200 200))
          (handleNodeClick 30 200 200 none (initState pz1))).route).toFinset =
          (pz1.houses.map House.id).toFinset) →
      checkWinCondition dist600 0 (handleNodeClick 30 100 100 (some (Node.house 1 200 200))
        (handleNodeClick 30 200 200 none (initState pz1))) =
        ((handleNodeClick 30 100 100 (some (Node.house 1 200 200))
          (handleNodeClick 30 200 200 none (initState pz1))), none)) :=
  claim_C1_win_validation dist600 0
    (handleNodeClick 30 100 100 (some (Node.house 1 200 200))
      (handleNodeClick 30 200 200 none (initState pz1)))
    (by decide) (by decide)

/-- The record the evaluator emits, when it emits one, is exactly
emitRecord on the pre-transition state. -/
theorem checkWinCondition_emits (dist : List Node → ℚ) (now : Nat) (s : GameState)
    (rec2 : ScoreRecord) (h : (checkWinCondition dist now s).2 = some rec2) :
    rec2 = emitRecord dist now s ∧ s.gameComplete = false := by
  unfold checkWinCondition at h
  by_cases h1 : s.route.length < 2
  · rw [if_pos h1] at h
    exact Option.noConfusion h
  · rw [if_neg h1] at h
    by_cases h2 : (headIsNP s.route && lastIsNP s.route) = true
    · rw [if_pos h2] at h
      by_cases h3 : s.visitedHouses.card = s.puzzle.houses.length
      · rw [if_pos h3] at h
        dsimp only at h
        by_cases h4 : (routeHouseIds s.route).toFinset.card ≠ s.puzzle.houses.length ∨
            (routeHouseIds s.route).length ≠ s.puzzle.houses.length
        · rw [if_pos h4] at h
          exact Option.noConfusion h
        · rw [if_neg h4] at h
          dsimp only at h
          by_cases h5 : s.gameComplete
          · rw [if_pos h5] at h
            exact Option.noConfusion h
          · rw [if_neg h5] at h
            exact ⟨(Option.some.inj h).symm, by simpa using h5⟩
      · rw [if_neg h3] at h
        exact Option.noConfusion h
    · rw [if_neg h2] at h
      exact Option.noConfusion h

/-- Claim C2: on every transition into the complete state the emitted
record's efficiency is min(optimal/current, 1) * 100 to two decimals with a
trailing percent sign, except that when the player's distance beats the
stored optimum the efficiency is the literal 100.00% and the record's
optimalDistance field is overwritten with the player's distance; the
puzzle's stored optimal_distance is never modified. -/
theorem claim_C2_efficiency (dist : List Node → ℚ) (now : Nat) (s : GameState)
    (hopt : 0 < s.puzzle.optimal_distance) (rec2 : ScoreRecord)
    (h : (checkWinCondition dist now s).2 = some rec2) :
    (dist s.route < s.puzzle.optimal_distance →
      rec2.efficiency = "100.00%" ∧ rec2.optimalDistance = dist s.route) ∧
    (¬ dist s.route < s.puzzle.optimal_distance →
      rec2.efficiency =
        toFixed2 (min (s.puzzle.optimal_distance / dist s.route) 1 * 100) ++ "%" ∧
      rec2.optimalDistance = s.puzzle.optimal_distance) ∧
    rec2.distance = dist s.route ∧
    (checkWinCondition dist now s).1.puzzle = s.puzzle := by
  obtain ⟨hrec, _⟩ := checkWinCondition_emits dist now s rec2 h
  subst hrec
  refine ⟨?_, ?_, ?_, afterCheck_puzzle dist now s⟩
  · intro hlt
    unfold emitRecord
    rw [if_pos hlt]
    exact ⟨rfl, rfl⟩
  · intro hge
    unfold emitRecord
    rw [if_neg hge]
    refine ⟨?_, rfl⟩
    have hd : 0 < dist s.route := by
      push_neg at hge
      exact lt_of_lt_of_le hopt hge
    have hmin : min (s.puzzle.optimal_distance / dist s.route) 1 * 100 =
        min (s.puzzle.optimal_distance / dist s.route * 100) 100 := by
      rw [min_mul_of_nonneg _ _ (by norm_num : (0:ℚ) ≤ 100)]
      norm_num
    rw [hmin]
  · unfold emitRecord
    by_cases hlt : dist s.route < s.puzzle.optimal_distance
    · rw [if_pos hlt]
    · rw [if_neg hlt]

/-- Witness for C2 at the completed one-house route with distance 600
against the stored optimum 500. -/
theorem claim_C2_efficiency_witness :
    (dist600 (handleNodeClick 30 100 100 (some (Node.house 1 200 200))
        (handleNodeClick 30 200 200 none (initState pz1))).route < pz1.optimal_distance →
      (emitRecord dist600 0 (handleNodeClick 30 100 100 (some (Node.house 1 200 200))
        (handleNodeClick 30 200 200 none (initState pz1)))).efficiency = "100.00%" ∧
      (emitRecord dist600 0 (handleNodeClick 30 100 100 (some (Node.house 1 200 200))
        (handleNodeClick 30 200 200 none (initState pz1)))).optimalDistance =
        dist600 (handleNodeClick 30 100 100 (some (Node.house 1 200 200))
          (handleNodeClick 30 200 200 none (initState pz1))).route) ∧
    (¬ dist600 (handleNodeClick 30 100 100 (some (Node.house 1 200 200))
        (handleNodeClick 30 200 200 none (initState pz1))).route < pz1.optimal_distance →
      (emitRecord dist600 0 (handleNodeClick 30 100 100 (some (Node.house 1 200 200))
        (handleNodeClick 30 200 200 none (initState pz1)))).efficiency =
        toFixed2 (min (pz1.optimal_distance /
          dist600 (handleNodeClick 30 100 100 (some (Node.house 1 200 200))
            (handleNodeClick 30 200 200 none (initState pz1))).route) 1 * 100) ++ "%" ∧
      (emitRecord dist600 0 (handleNodeClick 30 100 100 (some (Node.house 1 200 200))
        (handleNodeClick 30 200 200 none (initState pz1)))).optimalDistance =
        pz1.optimal_distance) ∧
    (emitRecord dist600 0 (handleNodeClick 30 100 100 (some (Node.house 1 200 200))
      (handleNodeClick 30 200 200 none (initState pz1)))).distance =
      dist600 (handleNodeClick 30 100 100 (some (Node.house 1 200 200))
        (handleNodeClick 30 200 200 none (initState pz1))).route ∧
    (checkWinCondition dist600 0 (handleNodeClick 30 100 100 (some (Node.house 1 200 200))
      (handleNodeClick 30 200 200 none (initState pz1)))).1.puzzle = pz1 :=
  claim_C2_efficiency dist600 0
    (handleNodeClick 30 100 100 (some (Node.house 1 200 200))
      (handleNodeClick 30 200 200 none (initState pz1)))
    (by decide) (emitRecord dist600 0 (handleNodeClick 30 100 100
      (some (Node.house 1 200 200)) (handleNodeClick 30 200 200 none (initState pz1))))
    rfl

/-! ### getBestScore maximality -/

theorem effGT_none_right (a b : String) (hb : parseEff b = none) :
    effGT a b = false := by
  unfold effGT
  rw [hb]
  rcases parseEff a <;> rfl

theorem effGT_self (a : String) : effGT a a = false := by
  unfold effGT
  rcases parseEff a with _ | x
  · rfl
  · simp

theorem effGT_iff (a b : String) :
    effGT a b = true ↔
      ∃ x y, parseEff a = some x ∧ parseEff b = some y ∧ y < x := by
  unfold effGT
  cases ha : parseEff a with
  | none => simp
  | some x =>
    cases hb : parseEff b with
    | none => simp
    | some y =>
      dsimp only
      rw [decide_eq_true_iff]
      constructor
      · intro hd
        exact ⟨x, y, rfl, rfl, hd⟩
      · rintro ⟨x2, y2, hx2, hy2, hlt⟩
        obtain rfl : x = x2 := Option.some.inj hx2
        obtain rfl : y = y2 := Option.some.inj hy2
        exact hlt

theorem effGT_dominates {c h b : String} (h1 : effGT c h = true)
    (h2 : effGT c b = false) : effGT h b = false := by
  obtain ⟨x, y, hcx, hhy, hyx⟩ := (effGT_iff c h).mp h1
  by_contra hne
  rw [Bool.not_eq_false] at hne
  obtain ⟨y2, z, hhy2, hbz, hzy⟩ := (effGT_iff h b).mp hne
  rw [hhy] at hhy2
  obtain rfl : y = y2 := Option.some.inj hhy2
  have hcb : effGT c b = true := (effGT_iff c b).mpr ⟨x, z, hcx, hbz, by linarith⟩
  rw [hcb] at h2
  exact Bool.noConfusion h2

theorem effGT_chain_le {c h b : String} (x y : ℚ) (hc : parseEff c = some x)
    (hh : parseEff h = some y) (hxy : x ≤ y) (h2 : effGT h b = false) :
    effGT c b = false := by
  by_contra hne
  rw [Bool.not_eq_false] at hne
  obtain ⟨x2, z, hcx2, hbz, hzx⟩ := (effGT_iff c b).mp hne
  rw [hc] at hcx2
  obtain rfl : x = x2 := Option.some.inj hcx2
  have hhb : effGT h b = true := (effGT_iff h b).mpr ⟨y, z, hh, hbz, by linarith⟩
  rw [hhb] at h2
  exact Bool.noConfusion h2

theorem foldl_bestStep_none (t : List StoredScore) : ∀ h : StoredScore,
    parseEff h.efficiency = none → t.foldl bestStep h = h := by
  induction t with
  | nil => intro h _; rfl
  | cons c rest ih =>
    intro h hn
    show List.foldl bestStep (bestStep h c) rest = h
    have hstep : bestStep h c = h := by
      rw [bestStep, effGT_none_right _ _ hn]
      simp
    rw [hstep]
    exact ih h hn

/-- The getBestScore reducer returns a member of the list (or its seed)
that no element of the list strictly beats on parsed efficiency. -/
theorem foldl_bestStep_spec (t : List StoredScore) : ∀ h : StoredScore,
    (t.foldl bestStep h = h ∨ t.foldl bestStep h ∈ t) ∧
    effGT h.efficiency (t.foldl bestStep h).efficiency = false ∧
    ∀ q ∈ t, effGT q.efficiency (t.foldl bestStep h).efficiency = false := by
  induction t with
  | nil =>
    intro h
    exact ⟨Or.inl rfl, effGT_self _, by simp⟩
  | cons c rest ih =>
    intro h
    obtain ⟨mem2, hh2, hall2⟩ := ih (bestStep h c)
    have hshow : (c :: rest).foldl bestStep h = rest.foldl bestStep (bestStep h c) := rfl
    rw [hshow]
    by_cases hgt : effGT c.efficiency h.efficiency = true
    · have hstep : bestStep h c = c := by rw [bestStep, if_pos hgt]
      rw [hstep] at mem2 hh2 hall2 ⊢
      refine ⟨?_, effGT_dominates hgt hh2, ?_⟩
      · rcases mem2 with he | hm
        · exact Or.inr (by rw [he]; exact List.mem_cons_self c rest)
        · exact Or.inr (List.mem_cons_of_mem c hm)
      · intro q hq
        rcases List.mem_cons.mp hq with rfl | hq2
        · exact hh2
        · exact hall2 q hq2
    · have hstep : bestStep h c = h := by
        rw [bestStep, if_neg (by simpa using hgt)]
      rw [hstep] at mem2 hh2 hall2 ⊢
      refine ⟨mem2.imp id (List.mem_cons_of_mem c), hh2, ?_⟩
      intro q hq
      rcases List.mem_cons.mp hq with rfl | hq2
      · rcases hcq : parseEff q.efficiency with _ | x
        · unfold effGT
          rw [hcq]
        · rcases hhq : parseEff h.efficiency with _ | y
          · rw [foldl_bestStep_none rest h hhq]
            exact effGT_none_right _ _ hhq
          · have hxy : x ≤ y := by
              by_contra hlt
              push_neg at hlt
              exact hgt ((effGT_iff _ _).mpr ⟨x, y, hcq, hhq, hlt⟩)
            exact effGT_chain_le x y hcq hhq hxy hh2
      · exact hall2 q hq2

theorem lookupScores_setKey (m : ScoresMap) (k : String) (v : List StoredScore) :
    lookupScores (setKey m k v) k = v := by
  induction m with
  | nil => simp [setKey, lookupScores]
  | cons e rest ih =>
    by_cases he : e.1 = k
    · unfold setKey
      rw [if_pos he]
      simp [lookupScores]
    · unfold setKey
      rw [if_neg he]
      unfold lookupScores at ih ⊢
      rw [List.find?_cons_of_neg _ (by simpa using he)]
      exact ih

/-- Claim C9 (amended): getBestScore returns null exactly when no score is
stored for that date and difficulty, and otherwise a stored record that no
stored record strictly beats on parsed efficiency; saveScore appends the
stamped record but retains only the most recent 50 records per puzzle, so
the maximum ranges over those retained records only, not over every record
ever saved. -/
theorem claim_C9_best_score (m : ScoresMap) (date difficulty : String) :
    (getBestScore m date difficulty = none ↔ getPuzzleScores m date difficulty = []) ∧
    (∀ rec2, getBestScore m date difficulty = some rec2 →
      rec2 ∈ getPuzzleScores m date difficulty ∧
      ∀ q ∈ getPuzzleScores m date difficulty,
        effGT q.efficiency rec2.efficiency = false) ∧
    (∀ (r : ScoreRecord) (now : Nat),
      getPuzzleScores (saveScore m date difficulty r now) date difficulty =
        if (getPuzzleScores m date difficulty ++ [storedOf date difficulty r now]).length > 50
        then (getPuzzleScores m date difficulty ++ [storedOf date difficulty r now]).drop
          ((getPuzzleScores m date difficulty ++ [storedOf date difficulty r now]).length - 50)
        else getPuzzleScores m date difficulty ++ [storedOf date difficulty r now]) := by
  refine ⟨?_, ?_, ?_⟩
  · unfold getBestScore
    cases hs : getPuzzleScores m date difficulty with
    | nil => simp
    | cons h t => simp
  · intro rec2 hrec
    unfold getBestScore at hrec
    cases hs : getPuzzleScores m date difficulty with
    | nil =>
      rw [hs] at hrec
      exact Option.noConfusion hrec
    | cons h t =>
      rw [hs] at hrec
      obtain ⟨hmem, hh, hall⟩ := foldl_bestStep_spec t h
      have hb : rec2 = t.foldl bestStep h := (Option.some.inj hrec).symm
      subst hb
      refine ⟨?_, ?_⟩
      · rcases hmem with he | hm
        · rw [he]; exact List.mem_cons_self h t
        · exact List.mem_cons_of_mem h hm
      · intro q hq
        rcases List.mem_cons.mp hq with rfl | hq2
        · exact hh
        · exact hall q hq2
  · intro r now
    unfold saveScore getPuzzleScores
    rw [lookupScores_setKey]

/-- Witness for C9 (amended) on a store holding a single saved record. -/
theorem claim_C9_best_score_witness :
    storedOf "2025-12-24" "easy"
        { distance := 600, optimalDistance := 500, efficiency := "83.33%",
          attempts := 1, timestamp := 5 } 5 ∈
      getPuzzleScores (saveScore [] "2025-12-24" "easy"
        { distance := 600, optimalDistance := 500, efficiency := "83.33%",
          attempts := 1, timestamp := 5 } 5) "2025-12-24" "easy" ∧
    ∀ q ∈ getPuzzleScores (saveScore [] "2025-12-24" "easy"
        { distance := 600, optimalDistance := 500, efficiency := "83.33%",
          attempts := 1, timestamp := 5 } 5) "2025-12-24" "easy",
      effGT q.efficiency (storedOf "2025-12-24" "easy"
        { distance := 600, optimalDistance := 500, efficiency := "83.33%",
          attempts := 1, timestamp := 5 } 5).efficiency = false :=
  (claim_C9_best_score (saveScore [] "2025-12-24" "easy"
      { distance := 600, optimalDistance := 500, efficiency := "83.33%",
        attempts := 1, timestamp := 5 } 5) "2025-12-24" "easy").2.1
    (storedOf "2025-12-24" "easy"
      { distance := 600, optimalDistance := 500, efficiency := "83.33%",
        attempts := 1, timestamp := 5 } 5) rfl

/-- A high-efficiency record that will be pushed out of the 50-record cap. -/
def recHigh : ScoreRecord :=
  { distance := 600, optimalDistance := 500, efficiency := "99.00%",
    attempts := 1, timestamp := 1 }

/-- A low-efficiency record saved 50 times after recHigh. -/
def recLow : ScoreRecord :=
  { distance := 600, optimalDistance := 500, efficiency := "1.00%",
    attempts := 1, timestamp := 1 }

/-- The store after saving recHigh once and then recLow 50 times for the
same puzzle, overflowing the 50-record cap. -/
def overflowStore : ScoresMap :=
  (recHigh :: List.replicate 50 recLow).foldl
    (fun m r => saveScore m "2025-12-24" "medium" r 5) []

theorem bestStep_self (a : StoredScore) : bestStep a a = a := by
  rw [bestStep]
  split <;> rfl

theorem foldl_bestStep_replicate (n : Nat) (a : StoredScore) :
    (List.replicate n a).foldl bestStep a = a := by
  induction n with
  | zero => rfl
  | succ k ih =>
    rw [List.replicate_succ]
    show (List.replicate k a).foldl bestStep (bestStep a a) = a
    rw [bestStep_self]
    exact ih

/-- Counterexample for C9 as stated: after 51 saveScore calls for the same
puzzle of which the first had parsed efficiency 99 and the remaining fifty
had parsed efficiency 1, getBestScore returns a record of efficiency 1.00
percent although a previously saved record (dropped by the 50-record cap)
strictly beats it. -/
theorem claim_C9_counterexample :
    (getBestScore overflowStore "2025-12-24" "medium").map StoredScore.efficiency =
      some "1.00%" ∧
    effGT "99.00%" "1.00%" = true := by
  constructor
  · have hscores : getPuzzleScores overflowStore "2025-12-24" "medium" =
        storedOf "2025-12-24" "medium" recLow 5 ::
          List.replicate 49 (storedOf "2025-12-24" "medium" recLow 5) := by decide
    unfold getBestScore
    rw [hscores]
    dsimp only
    rw [foldl_bestStep_replicate]
    rfl
  · have h99 : parseEff "99.00%" = some 99 := by
      simp [parseEff, dropFirstPct, jsParseFloat, takeDigits, digitsToNat, tenPow]
    have h1 : parseEff "1.00%" = some 1 := by
      simp [parseEff, dropFirstPct, jsParseFloat, takeDigits, digitsToNat, tenPow]
    rw [effGT, h99, h1]
    norm_num

end Tourle


